import Mathlib

/-!
# BothKeyStore

A shallow embedding of `litecore::BothKeyStore` (LiteCore/Storage/BothKeyStore.hh), the
key store that presents a store of live documents and a store of tombstones as one store.

The two underlying stores are reached through the virtual interface `KeyStore`.  A store
object is embedded as the table of its methods; every method works on the pair of the
store's own state and the environment the two stores have in common (the shared sequence
counter of the class comment, and whatever an expiration callback captures).  A `const`
method reads that pair, any other method also returns the new pair.  Calls on the
underlying stores are taken to return normally; the only fault that the composite itself
raises is the failed assertion of `setDocumentFlag`.
-/

namespace litecore

/-- Modelled from the spec: a byte string (`fleece::slice`, declared outside these sources). -/
abbrev slice := List Nat

/-- Modelled from the spec: sequence numbers (`sequence_t`, declared in an absent header),
unsigned 64-bit; `0` is never assigned and is what a failed `set` returns.  The composite
does no arithmetic on them. -/
abbrev sequence_t := Nat

/-- Modelled from the spec: expiration timestamps (`expiration_t`, declared in an absent
header), signed; `0` is the sentinel for no expiration.  The composite only compares them. -/
abbrev expiration_t := Int

/-- Modelled from the spec: the flags of a document (`DocumentFlags`, declared in an absent
header), a set of bits. -/
abbrev DocumentFlags := Nat

/-- Modelled from the spec: the `Deleted` bit of the flags (declared in an absent header),
taken to be the lowest bit. -/
def DocumentFlags.kDeleted : DocumentFlags := 1

/-- Modelled from the spec: the content option of a read (Record.hh is absent), how much
of a record's value to materialise: metadata only, or the full body. -/
inductive ContentOption where
  | kMetaOnly
  | kEntireBody
deriving DecidableEq

/-- Modelled from the spec: the record of section 3 (Record.hh is absent): key, sequence,
version, value (the body), flags and expiration, with the `_exists` mark that
`Record::exists()` reports. -/
structure Record where
  key : slice
  version : slice
  body : slice
  sequence : sequence_t
  flags : DocumentFlags
  expiration : expiration_t
  _exists : Bool
deriving DecidableEq

/-- Modelled from the spec: the caller's transaction (`Transaction`, declared in an absent
header); the composite hands the reference it was given to the stores. -/
structure Transaction where
  id : Nat
deriving DecidableEq

/-- Modelled from the spec: the query languages of `compileQuery` (`QueryLanguage`, declared
in the absent Query.hh). -/
inductive QueryLanguage where
  | kJSON
  | kN1QL
deriving DecidableEq

/-- Modelled from the spec: a compiled query (`Query`, declared in the absent Query.hh); the
composite only passes it on. -/
structure Query where
  expr : slice
  language : QueryLanguage
deriving DecidableEq

/-- Modelled from the spec: the kinds of index (`IndexSpec::Type`, declared in an absent
header). -/
inductive IndexType where
  | kValue
  | kFullText
  | kArray
  | kPredictive
deriving DecidableEq

/-- Modelled from the spec: an index specification (`IndexSpec`, declared in an absent
header); the composite only passes it on. -/
structure IndexSpec where
  name : slice
  type : IndexType
  expression : slice
deriving DecidableEq

/-- Modelled from the spec: the callback of `expireRecords` (`ExpirationCallback`, declared in
the absent KeyStore.hh): called with a document ID, it acts on the environment. -/
abbrev ExpirationCallback (δ : Type) := slice → δ → δ

/-- Modelled from the spec: the fault a failed `Assert` raises (Error.hh is absent): a
programming-error fault, raised whenever the asserted condition is false. -/
inductive error where
  | AssertionFailed
deriving DecidableEq

/-- The virtual interface `KeyStore` as far as BothKeyStore.hh calls it (the signatures are
those of the overriding methods): the methods of one store object, over the store's own
state `σ` and the environment `δ`. -/
structure KeyStore (σ δ : Type) where
  read : Record → ContentOption → σ × δ → Bool × Record
  get : sequence_t → σ × δ → Record
  set : slice → slice → slice → DocumentFlags → Transaction → Option sequence_t → Bool →
    σ × δ → sequence_t × (σ × δ)
  del : slice → Transaction → sequence_t → σ × δ → Bool × (σ × δ)
  setDocumentFlag : slice → sequence_t → DocumentFlags → Transaction → σ × δ → Bool × (σ × δ)
  setExpiration : slice → expiration_t → σ × δ → Bool × (σ × δ)
  getExpiration : slice → σ × δ → expiration_t × (σ × δ)
  expireRecords : Option (ExpirationCallback δ) → σ × δ → Nat × (σ × δ)
  compileQuery : slice → QueryLanguage → σ × δ → Query × (σ × δ)
  supportsIndexes : IndexType → σ × δ → Bool
  createIndex : IndexSpec → σ × δ → Bool × (σ × δ)
  deleteIndex : slice → σ × δ → σ × δ
  getIndexes : σ × δ → List IndexSpec

/-- The composite object: its two members, the live store and the dead store. -/
structure BothKeyStore (σL σD δ : Type) where
  _liveStore : KeyStore σL δ
  _deadStore : KeyStore σD δ

/-- The state a `BothKeyStore` runs on: that of the live store, that of the dead store, and
the environment both stores see. -/
structure State (σL σD δ : Type) where
  live : σL
  dead : σD
  env : δ

namespace BothKeyStore

variable {σL σD δ : Type}

/-- Method `BothKeyStore::read`: `_liveStore->read(rec, option) || _deadStore->read(rec, option)`.
The record is passed by reference, so the dead store receives it as the live store left it. -/
def read (self : BothKeyStore σL σD δ) (rec : Record) (option : ContentOption)
    (st : State σL σD δ) : Bool × Record :=
  let a := self._liveStore.read rec option (st.live, st.env)
  if a.1 then (true, a.2)
  else self._deadStore.read a.2 option (st.dead, st.env)

/-- Method `BothKeyStore::get`: the live store's record if it exists, else the dead store's. -/
def get (self : BothKeyStore σL σD δ) (seq : sequence_t) (st : State σL σD δ) : Record :=
  let r := self._liveStore.get seq (st.live, st.env)
  if r._exists then r else self._deadStore.get seq (st.dead, st.env)

/-- Method `BothKeyStore::del`: both removals are made, then their results are joined. -/
def del (self : BothKeyStore σL σD δ) (key : slice) (t : Transaction)
    (replacingSequence : sequence_t) (st : State σL σD δ) : Bool × State σL σD δ :=
  let a := self._liveStore.del key t replacingSequence (st.live, st.env)
  let b := self._deadStore.del key t replacingSequence (st.dead, a.2.2)
  (a.1 || b.1, ⟨a.2.1, b.2.1, b.2.2⟩)

/-- Method `BothKeyStore::setDocumentFlag`: the assertion on the flags, then the live store and,
if that returned false, the dead store.  The result is the fault or the returned value,
together with the state the call leaves. -/
def setDocumentFlag (self : BothKeyStore σL σD δ) (key : slice) (seq : sequence_t)
    (flags : DocumentFlags) (t : Transaction) (st : State σL σD δ) :
    Except error Bool × State σL σD δ :=
  if flags &&& DocumentFlags.kDeleted ≠ 0 then (.error .AssertionFailed, st)
  else
    let a := self._liveStore.setDocumentFlag key seq flags t (st.live, st.env)
    if a.1 then (.ok true, ⟨a.2.1, st.dead, a.2.2⟩)
    else
      let b := self._deadStore.setDocumentFlag key seq flags t (st.dead, a.2.2)
      (.ok b.1, ⟨a.2.1, b.2.1, b.2.2⟩)

/-- Method `BothKeyStore::setExpiration`: the live store, and the dead store if that returned false. -/
def setExpiration (self : BothKeyStore σL σD δ) (key : slice) (exp : expiration_t)
    (st : State σL σD δ) : Bool × State σL σD δ :=
  let a := self._liveStore.setExpiration key exp (st.live, st.env)
  if a.1 then (true, ⟨a.2.1, st.dead, a.2.2⟩)
  else
    let b := self._deadStore.setExpiration key exp (st.dead, a.2.2)
    (b.1, ⟨a.2.1, b.2.1, b.2.2⟩)

/-- Method `BothKeyStore::getExpiration`: `std::max` of what the two stores report, the two calls
taken in the order they are written. -/
def getExpiration (self : BothKeyStore σL σD δ) (key : slice) (st : State σL σD δ) :
    expiration_t × State σL σD δ :=
  let a := self._liveStore.getExpiration key (st.live, st.env)
  let b := self._deadStore.getExpiration key (st.dead, a.2.2)
  (max a.1 b.1, ⟨a.2.1, b.2.1, b.2.2⟩)

/-- Method `BothKeyStore::expireRecords`: the sum of the two counts, in `unsigned` (32-bit)
arithmetic, the two calls taken in the order they are written. -/
def expireRecords (self : BothKeyStore σL σD δ) (callback : Option (ExpirationCallback δ))
    (st : State σL σD δ) : Nat × State σL σD δ :=
  let a := self._liveStore.expireRecords callback (st.live, st.env)
  let b := self._deadStore.expireRecords callback (st.dead, a.2.2)
  ((a.1 + b.1) % 2 ^ 32, ⟨a.2.1, b.2.1, b.2.2⟩)

/-- Method `BothKeyStore::compileQuery`. -/
def compileQuery (self : BothKeyStore σL σD δ) (expr : slice) (language : QueryLanguage)
    (st : State σL σD δ) : Query × State σL σD δ :=
  let a := self._liveStore.compileQuery expr language (st.live, st.env)
  (a.1, ⟨a.2.1, st.dead, a.2.2⟩)

/-- Method `BothKeyStore::supportsIndexes`. -/
def supportsIndexes (self : BothKeyStore σL σD δ) (type : IndexType) (st : State σL σD δ) :
    Bool :=
  self._liveStore.supportsIndexes type (st.live, st.env)

/-- Method `BothKeyStore::createIndex`. -/
def createIndex (self : BothKeyStore σL σD δ) (spec : IndexSpec) (st : State σL σD δ) :
    Bool × State σL σD δ :=
  let a := self._liveStore.createIndex spec (st.live, st.env)
  (a.1, ⟨a.2.1, st.dead, a.2.2⟩)

/-- Method `BothKeyStore::deleteIndex`. -/
def deleteIndex (self : BothKeyStore σL σD δ) (name : slice) (st : State σL σD δ) :
    State σL σD δ :=
  let a := self._liveStore.deleteIndex name (st.live, st.env)
  ⟨a.1, st.dead, a.2⟩

/-- Method `BothKeyStore::getIndexes`. -/
def getIndexes (self : BothKeyStore σL σD δ) (st : State σL σD δ) : List IndexSpec :=
  self._liveStore.getIndexes (st.live, st.env)

/-- Modelled from the spec: `BothKeyStore::set`, declared in BothKeyStore.hh and defined in
BothKeyStore.cc, which is absent.  Steps 1 to 4 of section 4.2: the target store is the dead
store when `flags` has `Deleted` and the live store otherwise; the record is written to the
target by its own `set`; if that succeeds, the entry for the key is removed from the other
store (a `del` that names no sequence to replace, written `0`); a failed write returns `0`
and changes neither store. -/
def set (self : BothKeyStore σL σD δ) (key version value : slice) (flags : DocumentFlags)
    (t : Transaction) (replacingSequence : Option sequence_t) (newSequence : Bool)
    (st : State σL σD δ) : sequence_t × State σL σD δ :=
  if flags &&& DocumentFlags.kDeleted ≠ 0 then
    let w := self._deadStore.set key version value flags t replacingSequence newSequence
      (st.dead, st.env)
    if w.1 ≠ 0 then
      let d := self._liveStore.del key t 0 (st.live, w.2.2)
      (w.1, ⟨d.2.1, w.2.1, d.2.2⟩)
    else (0, st)
  else
    let w := self._liveStore.set key version value flags t replacingSequence newSequence
      (st.live, st.env)
    if w.1 ≠ 0 then
      let d := self._deadStore.del key t 0 (st.dead, w.2.2)
      (w.1, ⟨w.2.1, d.2.1, d.2.2⟩)
    else (0, st)

end BothKeyStore

/-- Modelled from the spec: what one physical store holds (the store of section 4.1, whose
declaration KeyStore.hh and whose implementations are absent): its records and its indexes. -/
structure MemStore where
  records : List Record
  indexes : List IndexSpec
deriving DecidableEq

/-- Modelled from the spec: the environment of the two stores: the one counter both draw
sequence numbers from (section 4.1), the time expirations are compared with, and the
document IDs a callback has noted. -/
structure Env where
  lastSequence : sequence_t
  now : expiration_t
  noted : List slice
deriving DecidableEq

namespace MemStore

/-- The record a store holds for a key, if any. -/
def find (key : slice) (s : MemStore) : Option Record :=
  s.records.find? (fun r => r.key == key)

/-- Modelled from the spec: `read` of one store: a hit fills in the record (the body only
when the full body is asked for), a miss leaves it as it was. -/
def read (rec : Record) (option : ContentOption) (s : MemStore × Env) : Bool × Record :=
  match find rec.key s.1 with
  | some r =>
    (true, { r with body := if option = ContentOption.kMetaOnly then [] else r.body,
                    _exists := true })
  | none => (false, rec)

/-- Modelled from the spec: `get` of one store, by sequence; a miss is a record that does
not exist. -/
def get (seq : sequence_t) (s : MemStore × Env) : Record :=
  match s.1.records.find? (fun r => r.sequence == seq) with
  | some r => { r with _exists := true }
  | none => ⟨[], [], [], 0, 0, 0, false⟩

/-- Modelled from the spec: the optimistic check of `set`: a supplied `replacingSequence`
is checked against the record the store holds for the key, if it holds one (it may hold
none, when the key is moving in from the other store). -/
def conflicts (replacingSequence : Option sequence_t) (held : Option Record) : Bool :=
  match replacingSequence, held with
  | some n, some r => r.sequence != n
  | _, _ => false

/-- Modelled from the spec: `set` of one store.  A failed check returns `0` and writes
nothing.  The sequence written is the next of the shared counter or, when no new sequence
is to be assigned, the one replaced. -/
def set (key version value : slice) (flags : DocumentFlags) (_t : Transaction)
    (replacingSequence : Option sequence_t) (newSequence : Bool) (s : MemStore × Env) :
    sequence_t × (MemStore × Env) :=
  let seq := if newSequence then s.2.lastSequence + 1 else replacingSequence.getD 0
  if conflicts replacingSequence (find key s.1) || seq == 0 then (0, s)
  else
    (seq,
     ({ s.1 with records := ⟨key, version, value, seq, flags, 0, true⟩ ::
                              s.1.records.filter (fun r => r.key != key) },
      { s.2 with lastSequence := if newSequence then seq else s.2.lastSequence }))

/-- Modelled from the spec: `del` of one store.  The removal fails when the key is absent,
or when a supplied `replacingSequence` (a non-zero one) is not the sequence of the record
held (section 7). -/
def del (key : slice) (_t : Transaction) (replacingSequence : sequence_t) (s : MemStore × Env) :
    Bool × (MemStore × Env) :=
  match find key s.1 with
  | some r =>
    if replacingSequence == 0 || r.sequence == replacingSequence then
      (true, ({ s.1 with records := s.1.records.filter (fun r => r.key != key) }, s.2))
    else (false, s)
  | none => (false, s)

/-- Modelled from the spec: `setDocumentFlag` of one store: adds the flags to the record
held under the key with that sequence. -/
def setDocumentFlag (key : slice) (seq : sequence_t) (flags : DocumentFlags) (_t : Transaction)
    (s : MemStore × Env) : Bool × (MemStore × Env) :=
  match find key s.1 with
  | some r =>
    if r.sequence == seq then
      let upd := fun (x : Record) =>
        if x.key == key then { x with flags := x.flags ||| flags } else x
      (true, ({ s.1 with records := s.1.records.map upd }, s.2))
    else (false, s)
  | none => (false, s)

/-- Modelled from the spec: `setExpiration` of one store: succeeds when the key is held. -/
def setExpiration (key : slice) (exp : expiration_t) (s : MemStore × Env) :
    Bool × (MemStore × Env) :=
  match find key s.1 with
  | some _ =>
    let upd := fun (x : Record) => if x.key == key then { x with expiration := exp } else x
    (true, ({ s.1 with records := s.1.records.map upd }, s.2))
  | none => (false, s)

/-- Modelled from the spec: `getExpiration` of one store: `0` when the key is not held. -/
def getExpiration (key : slice) (s : MemStore × Env) : expiration_t × (MemStore × Env) :=
  match find key s.1 with
  | some r => (r.expiration, s)
  | none => (0, s)

/-- Whether a record has an expiration that has passed. -/
def isExpired (now : expiration_t) (r : Record) : Bool :=
  decide (r.expiration ≠ 0) && decide (r.expiration ≤ now)

/-- Modelled from the spec: `expireRecords` of one store: removes the records whose
expiration has passed, calls the callback with the key of each, and counts them. -/
def expireRecords (callback : Option (ExpirationCallback Env)) (s : MemStore × Env) :
    Nat × (MemStore × Env) :=
  let gone := s.1.records.filter (isExpired s.2.now)
  let env :=
    match callback with
    | some f => gone.foldl (fun e r => f r.key e) s.2
    | none => s.2
  (gone.length % 2 ^ 32,
   ({ s.1 with records := s.1.records.filter (fun r => !isExpired s.2.now r) }, env))

/-- Modelled from the spec: `compileQuery` of one store. -/
def compileQuery (expr : slice) (language : QueryLanguage) (s : MemStore × Env) :
    Query × (MemStore × Env) :=
  (⟨expr, language⟩, s)

/-- Modelled from the spec: the capability check of one store, whose engine has every kind
of index but the predictive one. -/
def supportsIndexes (type : IndexType) (_s : MemStore × Env) : Bool :=
  type != IndexType.kPredictive

/-- Modelled from the spec: `createIndex` of one store: false for a kind it does not support. -/
def createIndex (spec : IndexSpec) (s : MemStore × Env) : Bool × (MemStore × Env) :=
  if supportsIndexes spec.type s then
    (true, ({ s.1 with indexes := spec :: s.1.indexes.filter (fun i => i.name != spec.name) }, s.2))
  else (false, s)

/-- Modelled from the spec: `deleteIndex` of one store. -/
def deleteIndex (name : slice) (s : MemStore × Env) : MemStore × Env :=
  ({ s.1 with indexes := s.1.indexes.filter (fun i => i.name != name) }, s.2)

/-- Modelled from the spec: `getIndexes` of one store. -/
def getIndexes (s : MemStore × Env) : List IndexSpec :=
  s.1.indexes

end MemStore

/-- The store of `MemStore` as a `KeyStore` object. -/
def memKeyStore : KeyStore MemStore Env where
  read := MemStore.read
  get := MemStore.get
  set := MemStore.set
  del := MemStore.del
  setDocumentFlag := MemStore.setDocumentFlag
  setExpiration := MemStore.setExpiration
  getExpiration := MemStore.getExpiration
  expireRecords := MemStore.expireRecords
  compileQuery := MemStore.compileQuery
  supportsIndexes := MemStore.supportsIndexes
  createIndex := MemStore.createIndex
  deleteIndex := MemStore.deleteIndex
  getIndexes := MemStore.getIndexes

/-- A `BothKeyStore` over two such stores. -/
def memBoth : BothKeyStore MemStore MemStore Env :=
  ⟨memKeyStore, memKeyStore⟩

/-! ## Inputs used to instantiate the statements -/

/-- An open transaction. -/
def t0 : Transaction := ⟨1⟩

/-- The document ID `doc1`. -/
def doc1 : slice := [100, 111, 99, 49]

/-- A record that names a key and nothing else, as a caller passes it to `read`. -/
def probe (key : slice) : Record := ⟨key, [], [], 0, 0, 0, false⟩

/-- The environment: three sequences assigned so far, the time is 100. -/
def env0 : Env := ⟨3, 100, []⟩

/-- A store that holds `doc1` at sequence 3, live, expiring at 50. -/
def liveDoc1 : MemStore := ⟨[⟨doc1, [3], [30], 3, 0, 50, true⟩], []⟩

/-- A store that holds `doc1` as a tombstone at sequence 2, expiring at 70. -/
def deadDoc1 : MemStore := ⟨[⟨doc1, [2], [20], 2, 1, 70, true⟩], []⟩

/-- A store that holds nothing. -/
def noDocs : MemStore := ⟨[], []⟩

/-- The state in which `doc1` is live and the dead store is empty. -/
def stLive : State MemStore MemStore Env := ⟨liveDoc1, noDocs, env0⟩

/-- The state in which `doc1` is a tombstone and the live store is empty. -/
def stDead : State MemStore MemStore Env := ⟨noDocs, deadDoc1, env0⟩

/-- A state in which both stores hold `doc1`. -/
def stBoth : State MemStore MemStore Env := ⟨liveDoc1, deadDoc1, env0⟩

/-- The document ID `doc2`. -/
def doc2 : slice := [100, 111, 99, 50]

/-- A state in which the live store holds `doc1`, expiring at 50, the dead store holds a
tombstone of `doc2`, expiring at 70, and the time is 100. -/
def stExpiring : State MemStore MemStore Env :=
  ⟨liveDoc1, ⟨[⟨doc2, [2], [20], 2, 1, 70, true⟩], []⟩, env0⟩

/-- A callback that notes the document ID it is called with. -/
def noteExpired : ExpirationCallback Env :=
  fun docID e => { e with noted := e.noted ++ [docID] }

end litecore

/-! ## `c4cert_subjectNameAtIndex` (C/c4Certificate.cc)

The function reads two vectors of the certificate, the distinguished names of the subject
and its alternative names, and writes the entry at an index into `*outInfo`.  The index is
an `unsigned`, the sizes are `size_t`. -/

/-- A slice as the C API passes it (`C4Slice`, and `fleece::slice` and `alloc_slice`, which
convert to it; their headers are absent): `none` is the null slice, `some b` the bytes `b`. -/
abbrev C4Slice := Option (List Nat)

/-- The null slice, `nullslice`. -/
def nullslice : C4Slice := none

/-- A string result of the C API (`C4StringResult`; its header is absent), bytes that the
caller owns: `none` is the empty result `{}`. -/
abbrev C4StringResult := Option (List Nat)

/-- The out parameter of `c4cert_subjectNameAtIndex` (`C4CertNameInfo`; c4Certificate.h is
absent), with the two fields the function assigns. -/
structure C4CertNameInfo where
  id : C4Slice
  value : C4StringResult
deriving DecidableEq

namespace litecore.crypto

/-- The subject name of a certificate as the function uses it (`DistinguishedName`;
Certificate.hh is absent): what `asVector()` returns, pairs of an attribute ID and a value. -/
structure DistinguishedName where
  asVector : List (C4Slice × C4Slice)
deriving DecidableEq

/-- A certificate as the function uses it (`CertBase`; Certificate.hh is absent): its subject
name, and its subject alternative names, pairs of a tag and a value. -/
structure CertBase (Tag : Type) where
  subjectName : DistinguishedName
  subjectAltNames : List (Tag × C4Slice)

end litecore.crypto

/-- The compound assignment `index -= n` of an `unsigned index` and a `size_t n`: the
difference is taken in `size_t`, modulo 2^64, and converted to `unsigned`, modulo 2^32. -/
def subAssignUnsigned (index n : Nat) : Nat :=
  (index + (2 ^ 64 - n % 2 ^ 64)) % 2 ^ 64 % 2 ^ 32

/-- Function `c4cert_subjectNameAtIndex`.  The result is the returned `bool` and `*outInfo` as
the call leaves it.  `SubjectAltNames::nameOfTag`, declared in the absent Certificate.hh, is
the parameter `nameOfTag`. -/
def c4cert_subjectNameAtIndex {Tag : Type} (nameOfTag : Tag → C4Slice)
    (cert : litecore.crypto.CertBase Tag) (index : Nat) (outInfo : C4CertNameInfo) :
    Bool × C4CertNameInfo :=
  let outInfo := { outInfo with id := nullslice }
  let outInfo := { outInfo with value := none }
  let dn := cert.subjectName.asVector
  if h : index < dn.length then
    let outInfo := { outInfo with id := dn[index].1 }
    let outInfo := { outInfo with value := dn[index].2 }
    (true, outInfo)
  else
    let index := subAssignUnsigned index dn.length
    let san := cert.subjectAltNames
    if h2 : index < san.length then
      let outInfo := { outInfo with id := nameOfTag san[index].1 }
      let outInfo := { outInfo with value := san[index].2 }
      (true, outInfo)
    else
      (false, outInfo)

/-- The name of a tag of a subject alternative name, for the tags numbered 1 and 2. -/
def tagName (tag : Nat) : C4Slice :=
  if tag = 1 then some [114, 102, 99, 56, 50, 50, 78, 97, 109, 101]
  else if tag = 2 then some [100, 78, 83, 78, 97, 109, 101]
  else none

/-- A certificate with two distinguished names (`CN`, `O`) and one alternative name, a DNS
name. -/
def certJane : litecore.crypto.CertBase Nat :=
  ⟨⟨[(some [67, 78], some [74, 97, 110, 101]), (some [79], some [65, 99, 109, 101])]⟩,
   [(2, some [106, 46, 111, 114, 103])]⟩

namespace litecore

/-! ## Theorems -/

namespace MemStore

/-- After the records under a key are filtered out, the key is not found. -/
theorem find_filter_ne (key : slice) (l : List Record) (ix : List IndexSpec) :
    find key ⟨l.filter (fun r => r.key != key), ix⟩ = none := by
  simp [find, List.find?_eq_none]

/-- A removal that names no sequence, or the sequence of every record held under the key,
leaves the key not found. -/
theorem find_del_none (key : slice) (t : Transaction) (replacingSequence : sequence_t)
    (s : MemStore × Env)
    (h : replacingSequence = 0 ∨ ∀ r ∈ s.1.records, r.key = key → r.sequence = replacingSequence) :
    find key (del key t replacingSequence s).2.1 = none := by
  unfold del
  cases hf : find key s.1 with
  | none => simpa using hf
  | some r =>
    have hmem : r ∈ s.1.records := List.mem_of_find?_eq_some hf
    have hkey : r.key = key := by
      have := List.find?_some hf
      simpa using this
    have hc : (replacingSequence == 0 || r.sequence == replacingSequence) = true := by
      rcases h with h | h
      · simp [h]
      · simp [h r hmem hkey]
    simp only [hc, if_true]
    exact find_filter_ne key s.1.records s.1.indexes

/-- A write that succeeds leaves the key found, with the version, value and flags written. -/
theorem find_set (key version value : slice) (flags : DocumentFlags) (t : Transaction)
    (replacingSequence : Option sequence_t) (newSequence : Bool) (s : MemStore × Env)
    (h : (set key version value flags t replacingSequence newSequence s).1 ≠ 0) :
    find key (set key version value flags t replacingSequence newSequence s).2.1 =
      some ⟨key, version, value,
        (set key version value flags t replacingSequence newSequence s).1, flags, 0, true⟩ := by
  by_cases hc : (conflicts replacingSequence (find key s.1) ||
      (if newSequence = true then s.2.lastSequence + 1 else replacingSequence.getD 0) == 0) = true
  · unfold set at h
    dsimp only at h
    rw [if_pos hc] at h
    exact absurd rfl h
  · unfold set
    dsimp only
    rw [if_neg hc]
    simp [find]

end MemStore

namespace BothKeyStore

variable {σL σD δ : Type}

/-- C1: `read` asks the live store first and the dead store only when the live store
reports not-found.  It returns true exactly when the live read returns true, or returns
false and the dead read returns true; it returns false exactly when both report
not-found.  On a live hit the result is the live store's own result, record included,
whatever the dead store holds; on a live miss it is the dead store's result. -/
theorem read_live_then_dead (self : BothKeyStore σL σD δ) (rec : Record)
    (option : ContentOption) (st : State σL σD δ) :
    let a := self._liveStore.read rec option (st.live, st.env)
    let b := self._deadStore.read a.2 option (st.dead, st.env)
    ((self.read rec option st).1 = true ↔ a.1 = true ∨ (a.1 = false ∧ b.1 = true)) ∧
    ((self.read rec option st).1 = false ↔ a.1 = false ∧ b.1 = false) ∧
    (a.1 = true → self.read rec option st = a) ∧
    (a.1 = false → self.read rec option st = b) := by
  intro a b
  have ha : self._liveStore.read rec option (st.live, st.env) = a := rfl
  have hb : self._deadStore.read a.2 option (st.dead, st.env) = b := rfl
  cases h : a.1 with
  | true =>
    have hr : self.read rec option st = a := by
      simp only [read, ha, h, if_true]
      exact Prod.ext h.symm rfl
    simp [hr, h]
  | false =>
    have hr : self.read rec option st = b := by
      simp [read, ha, h, hb]
    simp [hr]

/-- Instance of C1 in a state where both stores hold the key: the live store answers, and
the record returned is the live one (version 3), not the tombstone. -/
theorem read_live_then_dead_witness :
    (memKeyStore.read (probe doc1) ContentOption.kEntireBody (liveDoc1, env0)).1 = true ∧
    memBoth.read (probe doc1) ContentOption.kEntireBody stBoth =
      (true, ⟨doc1, [3], [30], 3, 0, 50, true⟩) :=
  ⟨by decide,
   ((read_live_then_dead memBoth (probe doc1) ContentOption.kEntireBody stBoth).2.2.1
      (by decide)).trans (by decide)⟩

/-- C2: `del` calls `del` on the live store and then on the dead store, with the same key,
transaction and sequence, whatever the live store returned: the state it leaves is the one
left by the two removals.  It returns true exactly when one of the two removals returned
true, and false exactly when both returned false. -/
theorem del_both_stores (self : BothKeyStore σL σD δ) (key : slice) (t : Transaction)
    (replacingSequence : sequence_t) (st : State σL σD δ) :
    let a := self._liveStore.del key t replacingSequence (st.live, st.env)
    let b := self._deadStore.del key t replacingSequence (st.dead, a.2.2)
    ((self.del key t replacingSequence st).1 = true ↔ a.1 = true ∨ b.1 = true) ∧
    ((self.del key t replacingSequence st).1 = false ↔ a.1 = false ∧ b.1 = false) ∧
    (self.del key t replacingSequence st).2.live = a.2.1 ∧
    (self.del key t replacingSequence st).2.dead = b.2.1 ∧
    (self.del key t replacingSequence st).2.env = b.2.2 := by
  intro a b
  simp [del, a, b]

/-- Instance of C2 in a state where both stores hold the key: the live removal succeeds
and the dead store loses its record too. -/
theorem del_both_stores_witness :
    (memKeyStore.del doc1 t0 0 (liveDoc1, env0)).1 = true ∧
    (memBoth.del doc1 t0 0 stBoth).2.dead = noDocs :=
  ⟨by decide, ((del_both_stores memBoth doc1 t0 0 stBoth).2.2.2.1).trans (by decide)⟩

/-- C3, as amended: over two stores that honour `replacingSequence`, when the sequence
passed to `del` is `0` (none to replace) or is the sequence of every record that the live
store and the dead store hold under the key, a `read` of the key after the `del` returns
false, whichever of the stores held the key, both included. -/
theorem read_after_del (key : slice) (t : Transaction) (replacingSequence : sequence_t)
    (st : State MemStore MemStore Env)
    (h : replacingSequence = 0 ∨
      ((∀ r ∈ st.live.records, r.key = key → r.sequence = replacingSequence) ∧
       (∀ r ∈ st.dead.records, r.key = key → r.sequence = replacingSequence)))
    (rec : Record) (option : ContentOption) (hk : rec.key = key) :
    (memBoth.read rec option (memBoth.del key t replacingSequence st).2).1 = false := by
  have hl : MemStore.find key
      (MemStore.del key t replacingSequence (st.live, st.env)).2.1 = none :=
    MemStore.find_del_none key t replacingSequence (st.live, st.env) (h.imp id (·.1))
  have hd : ∀ e : Env, MemStore.find key
      (MemStore.del key t replacingSequence (st.dead, e)).2.1 = none :=
    fun e => MemStore.find_del_none key t replacingSequence (st.dead, e) (h.imp id (·.2))
  subst hk
  simp [read, del, memBoth, memKeyStore, MemStore.read, hl, hd]

/-- Instance of the amended C3, scenario D: `doc1` is live at sequence 3, `del` with
sequence 3 returns true and the key is then not found. -/
theorem read_after_del_witness :
    (memBoth.del doc1 t0 3 stLive).1 = true ∧
    (memBoth.read (probe doc1) ContentOption.kEntireBody (memBoth.del doc1 t0 3 stLive).2).1
      = false :=
  ⟨by decide,
   read_after_del doc1 t0 3 stLive (Or.inr ⟨by decide, by decide⟩) (probe doc1)
     ContentOption.kEntireBody rfl⟩

/-- C3 as stated fails: `doc1` is live at sequence 3 and the dead store is empty; `del`
with the sequence 7 fails in both stores and returns false, and the `read` that follows
still finds `doc1`. -/
theorem read_after_del_counterexample :
    (memBoth.del doc1 t0 7 stLive).1 = false ∧
    (memBoth.read (probe doc1) ContentOption.kEntireBody (memBoth.del doc1 t0 7 stLive).2).1
      = true := by
  decide

/-- C4: after a `set` that returns a non-zero sequence, if `flags` has `Deleted` the key is
not found in the live store and is found in the dead store with the version and value
given, the dead store being the one written by its `set` and the live store the one the key
is removed from; if `flags` has not `Deleted` the same holds with the two stores exchanged. -/
theorem set_flag_location (key version value : slice) (flags : DocumentFlags) (t : Transaction)
    (replacingSequence : Option sequence_t) (newSequence : Bool)
    (st : State MemStore MemStore Env)
    (hok : (memBoth.set key version value flags t replacingSequence newSequence st).1 ≠ 0) :
    let st' := (memBoth.set key version value flags t replacingSequence newSequence st).2
    (flags &&& DocumentFlags.kDeleted ≠ 0 →
      (∀ rec option, rec.key = key →
        (memKeyStore.read rec option (st'.live, st'.env)).1 = false) ∧
      (∀ rec, rec.key = key →
        (memKeyStore.read rec ContentOption.kEntireBody (st'.dead, st'.env)).1 = true ∧
        (memKeyStore.read rec ContentOption.kEntireBody (st'.dead, st'.env)).2.version = version ∧
        (memKeyStore.read rec ContentOption.kEntireBody (st'.dead, st'.env)).2.body = value) ∧
      st'.dead = (memKeyStore.set key version value flags t replacingSequence newSequence
        (st.dead, st.env)).2.1 ∧
      st'.live = (memKeyStore.del key t 0 (st.live, (memKeyStore.set key version value flags t
        replacingSequence newSequence (st.dead, st.env)).2.2)).2.1) ∧
    (flags &&& DocumentFlags.kDeleted = 0 →
      (∀ rec, rec.key = key →
        (memKeyStore.read rec ContentOption.kEntireBody (st'.live, st'.env)).1 = true ∧
        (memKeyStore.read rec ContentOption.kEntireBody (st'.live, st'.env)).2.version = version ∧
        (memKeyStore.read rec ContentOption.kEntireBody (st'.live, st'.env)).2.body = value) ∧
      (∀ rec option, rec.key = key →
        (memKeyStore.read rec option (st'.dead, st'.env)).1 = false) ∧
      st'.live = (memKeyStore.set key version value flags t replacingSequence newSequence
        (st.live, st.env)).2.1 ∧
      st'.dead = (memKeyStore.del key t 0 (st.dead, (memKeyStore.set key version value flags t
        replacingSequence newSequence (st.live, st.env)).2.2)).2.1) := by
  intro st'
  constructor
  · intro hdel
    have hw : (MemStore.set key version value flags t replacingSequence newSequence
        (st.dead, st.env)).1 ≠ 0 := by
      intro h0
      apply hok
      simp [set, memBoth, memKeyStore, hdel, h0]
    have e1 : st' = ⟨(MemStore.del key t 0 (st.live, (MemStore.set key version value flags t
          replacingSequence newSequence (st.dead, st.env)).2.2)).2.1,
        (MemStore.set key version value flags t replacingSequence newSequence
          (st.dead, st.env)).2.1,
        (MemStore.del key t 0 (st.live, (MemStore.set key version value flags t
          replacingSequence newSequence (st.dead, st.env)).2.2)).2.2⟩ := by
      simp [st', set, memBoth, memKeyStore, hdel, hw]
    have hs := MemStore.find_set key version value flags t replacingSequence newSequence
      (st.dead, st.env) hw
    have hd := MemStore.find_del_none key t 0 (st.live, (MemStore.set key version value flags t
          replacingSequence newSequence (st.dead, st.env)).2.2) (Or.inl rfl)
    rw [e1]
    refine ⟨?_, ?_, rfl, rfl⟩
    · intro rec option hk
      subst hk
      simp [memKeyStore, MemStore.read, hd]
    · intro rec hk
      subst hk
      simp [memKeyStore, MemStore.read, hs]
  · intro hdel
    have hw : (MemStore.set key version value flags t replacingSequence newSequence
        (st.live, st.env)).1 ≠ 0 := by
      intro h0
      apply hok
      simp [set, memBoth, memKeyStore, hdel, h0]
    have e1 : st' = ⟨(MemStore.set key version value flags t replacingSequence newSequence
          (st.live, st.env)).2.1,
        (MemStore.del key t 0 (st.dead, (MemStore.set key version value flags t
          replacingSequence newSequence (st.live, st.env)).2.2)).2.1,
        (MemStore.del key t 0 (st.dead, (MemStore.set key version value flags t
          replacingSequence newSequence (st.live, st.env)).2.2)).2.2⟩ := by
      simp [st', set, memBoth, memKeyStore, hdel, hw]
    have hs := MemStore.find_set key version value flags t replacingSequence newSequence
      (st.live, st.env) hw
    have hd := MemStore.find_del_none key t 0 (st.dead, (MemStore.set key version value flags t
          replacingSequence newSequence (st.live, st.env)).2.2) (Or.inl rfl)
    rw [e1]
    refine ⟨?_, ?_, rfl, rfl⟩
    · intro rec hk
      subst hk
      simp [memKeyStore, MemStore.read, hs]
    · intro rec option hk
      subst hk
      simp [memKeyStore, MemStore.read, hd]

/-- Instance of C4, scenario B: `doc1` is live at sequence 3; a `set` with `Deleted` and
the sequence 3 to replace returns 4, the live store no longer finds `doc1`, and the dead
store finds it with the value written. -/
theorem set_flag_location_witness :
    (memBoth.set doc1 [4] [40] DocumentFlags.kDeleted t0 (some 3) true stLive).1 = 4 ∧
    (memKeyStore.read (probe doc1) ContentOption.kEntireBody
      ((memBoth.set doc1 [4] [40] DocumentFlags.kDeleted t0 (some 3) true stLive).2.live,
       (memBoth.set doc1 [4] [40] DocumentFlags.kDeleted t0 (some 3) true stLive).2.env)).1
      = false ∧
    (memKeyStore.read (probe doc1) ContentOption.kEntireBody
      ((memBoth.set doc1 [4] [40] DocumentFlags.kDeleted t0 (some 3) true stLive).2.dead,
       (memBoth.set doc1 [4] [40] DocumentFlags.kDeleted t0 (some 3) true stLive).2.env)).2.body
      = [40] :=
  ⟨by decide,
   ((set_flag_location doc1 [4] [40] DocumentFlags.kDeleted t0 (some 3) true stLive
      (by decide)).1 (by decide)).1 (probe doc1) ContentOption.kEntireBody rfl,
   (((set_flag_location doc1 [4] [40] DocumentFlags.kDeleted t0 (some 3) true stLive
      (by decide)).1 (by decide)).2.1 (probe doc1) rfl).2.2⟩

/-- C5: `setDocumentFlag` with flags that include `Deleted` faults with a failed assertion
and leaves the state as it was, no store having been called.  With flags that do not
include `Deleted` it does not fault: on a true from the live store it returns true and the
dead store keeps its state; on a false it returns what the dead store returns; so it
returns true exactly when one of the two returned true. -/
theorem setDocumentFlag_guarded (self : BothKeyStore σL σD δ) (key : slice) (seq : sequence_t)
    (flags : DocumentFlags) (t : Transaction) (st : State σL σD δ) :
    let a := self._liveStore.setDocumentFlag key seq flags t (st.live, st.env)
    let b := self._deadStore.setDocumentFlag key seq flags t (st.dead, a.2.2)
    (flags &&& DocumentFlags.kDeleted ≠ 0 →
      self.setDocumentFlag key seq flags t st = (Except.error error.AssertionFailed, st)) ∧
    (flags &&& DocumentFlags.kDeleted = 0 →
      (a.1 = true →
        self.setDocumentFlag key seq flags t st = (Except.ok true, ⟨a.2.1, st.dead, a.2.2⟩)) ∧
      (a.1 = false →
        self.setDocumentFlag key seq flags t st = (Except.ok b.1, ⟨a.2.1, b.2.1, b.2.2⟩)) ∧
      ((self.setDocumentFlag key seq flags t st).1 = Except.ok true ↔
        a.1 = true ∨ (a.1 = false ∧ b.1 = true)) ∧
      ((self.setDocumentFlag key seq flags t st).1 = Except.ok false ↔
        a.1 = false ∧ b.1 = false)) := by
  intro a b
  refine ⟨fun hd => by simp [setDocumentFlag, hd], fun hd => ?_⟩
  cases h : a.1 with
  | true => simp [setDocumentFlag, hd, a, b] at h ⊢; simp [h]
  | false => simp [setDocumentFlag, hd, a, b] at h ⊢; simp [h]

/-- Instance of C5, scenario E: with `Deleted` the call on the live `doc1` faults and the
state is as before; with another flag the call on the tombstone misses in the live store
and succeeds in the dead store. -/
theorem setDocumentFlag_guarded_witness :
    memBoth.setDocumentFlag doc1 3 DocumentFlags.kDeleted t0 stLive =
      (Except.error error.AssertionFailed, stLive) ∧
    (memBoth.setDocumentFlag doc1 2 4 t0 stDead).1 = Except.ok true :=
  ⟨(setDocumentFlag_guarded memBoth doc1 3 DocumentFlags.kDeleted t0 stLive).1 (by decide),
   (((setDocumentFlag_guarded memBoth doc1 2 4 t0 stDead).2 (by decide)).2.2.1).2
     (Or.inr ⟨by decide, by decide⟩)⟩

/-- C6: `get` returns the live store's record for the sequence when that record exists,
and otherwise exactly what the dead store's `get` returns; the record returned exists
exactly when the live store's or the dead store's does. -/
theorem get_live_then_dead (self : BothKeyStore σL σD δ) (seq : sequence_t)
    (st : State σL σD δ) :
    let r := self._liveStore.get seq (st.live, st.env)
    let d := self._deadStore.get seq (st.dead, st.env)
    (r._exists = true → self.get seq st = r) ∧
    (r._exists = false → self.get seq st = d) ∧
    ((self.get seq st)._exists = true ↔ r._exists = true ∨ d._exists = true) := by
  intro r d
  cases h : r._exists with
  | true => simp [get, r, d] at h ⊢; simp [h]
  | false => simp [get, r, d] at h ⊢; simp [h]

/-- Instance of C6: sequence 2 is not in the live store, and `get` returns the tombstone
the dead store holds at that sequence. -/
theorem get_live_then_dead_witness :
    (memKeyStore.get 2 (liveDoc1, env0))._exists = false ∧
    memBoth.get 2 stBoth = ⟨doc1, [2], [20], 2, 1, 70, true⟩ :=
  ⟨by decide, ((get_live_then_dead memBoth 2 stBoth).2.1 (by decide)).trans (by decide)⟩

/-- C7: `getExpiration` returns the maximum of what the live store and the dead store
report for the key.  When one of them reports 0 and the other a non-negative `e`, the
result is `e`; when both report 0, the result is 0. -/
theorem getExpiration_max (self : BothKeyStore σL σD δ) (key : slice) (st : State σL σD δ) :
    let a := self._liveStore.getExpiration key (st.live, st.env)
    let b := self._deadStore.getExpiration key (st.dead, a.2.2)
    (self.getExpiration key st).1 = max a.1 b.1 ∧
    (∀ e : expiration_t, 0 ≤ e → (a.1 = 0 ∧ b.1 = e) ∨ (a.1 = e ∧ b.1 = 0) →
      (self.getExpiration key st).1 = e) ∧
    (a.1 = 0 → b.1 = 0 → (self.getExpiration key st).1 = 0) := by
  intro a b
  have hr : (self.getExpiration key st).1 = max a.1 b.1 := rfl
  refine ⟨hr, ?_, ?_⟩
  · rintro e he (⟨h1, h2⟩ | ⟨h1, h2⟩)
    · rw [hr, h1, h2]; exact max_eq_right he
    · rw [hr, h1, h2]; exact max_eq_left he
  · intro h1 h2
    rw [hr, h1, h2]; rfl

/-- Instance of C7: the live store does not hold `doc1` and reports 0, the dead store
reports 70, and the result is 70. -/
theorem getExpiration_max_witness :
    (memBoth.getExpiration doc1 stDead).1 = 70 :=
  (getExpiration_max memBoth doc1 stDead).2.1 70 (by decide) (Or.inl ⟨by decide, by decide⟩)

/-- C8: `setExpiration` tries the live store and, only if that returned false, the dead
store, and returns true exactly when one of them accepted.  When the live store accepts,
the dead store keeps its state; and, a live store that refuses keeping its own, every call
leaves the state of at least one of the two stores as it was. -/
theorem setExpiration_live_then_dead (self : BothKeyStore σL σD δ) (key : slice)
    (exp : expiration_t) (st : State σL σD δ) :
    let a := self._liveStore.setExpiration key exp (st.live, st.env)
    let b := self._deadStore.setExpiration key exp (st.dead, a.2.2)
    (a.1 = true → self.setExpiration key exp st = (true, ⟨a.2.1, st.dead, a.2.2⟩)) ∧
    (a.1 = false → self.setExpiration key exp st = (b.1, ⟨a.2.1, b.2.1, b.2.2⟩)) ∧
    ((self.setExpiration key exp st).1 = true ↔ a.1 = true ∨ (a.1 = false ∧ b.1 = true)) ∧
    ((a.1 = false → a.2.1 = st.live) →
      (self.setExpiration key exp st).2.live = st.live ∨
      (self.setExpiration key exp st).2.dead = st.dead) := by
  intro a b
  cases h : a.1 with
  | true => simp [setExpiration, a, b] at h ⊢; simp [h]
  | false => simp [setExpiration, a, b] at h ⊢; simp +contextual [h]

/-- Instance of C8 in a state where both stores hold the key: the live store accepts and
the dead store is as it was. -/
theorem setExpiration_live_then_dead_witness :
    (memBoth.setExpiration doc1 90 stBoth).1 = true ∧
    (memBoth.setExpiration doc1 90 stBoth).2.dead = deadDoc1 :=
  ⟨((setExpiration_live_then_dead memBoth doc1 90 stBoth).2.2.1).2 (Or.inl (by decide)),
   (congrArg (fun p => p.2.dead)
     ((setExpiration_live_then_dead memBoth doc1 90 stBoth).1 (by decide)))⟩

/-- C9: `expireRecords` runs `expireRecords` on the live store and on the dead store with
the callback it was given, and returns the sum of the two counts modulo 2^32; the state it
leaves is the one left by the two runs. -/
theorem expireRecords_sum (self : BothKeyStore σL σD δ)
    (callback : Option (ExpirationCallback δ)) (st : State σL σD δ) :
    let a := self._liveStore.expireRecords callback (st.live, st.env)
    let b := self._deadStore.expireRecords callback (st.dead, a.2.2)
    (self.expireRecords callback st).1 = (a.1 + b.1) % 2 ^ 32 ∧
    (self.expireRecords callback st).2 = ⟨a.2.1, b.2.1, b.2.2⟩ := by
  intro a b
  exact ⟨rfl, rfl⟩

/-- Instance of C9: one expired record in each store; the count is 2 and the callback has
been called with the live document and with the tombstone. -/
theorem expireRecords_sum_witness :
    (memBoth.expireRecords (some noteExpired) stExpiring).1 = 2 ∧
    (memBoth.expireRecords (some noteExpired) stExpiring).2.env.noted = [doc1, doc2] :=
  ⟨((expireRecords_sum memBoth (some noteExpired) stExpiring).1).trans (by decide),
   (congrArg (fun s => s.env.noted)
     (expireRecords_sum memBoth (some noteExpired) stExpiring).2).trans (by decide)⟩

/-- C10: `compileQuery`, `supportsIndexes`, `createIndex`, `deleteIndex` and `getIndexes`
each return the result of the same call on the live store and leave the state the live
store leaves; the dead store's state is the same before and after, and a false from the
live store for an index type it does not support is returned as false. -/
theorem query_index_live_only (self : BothKeyStore σL σD δ) (expr : slice)
    (language : QueryLanguage) (type : IndexType) (spec : IndexSpec) (name : slice)
    (st : State σL σD δ) :
    let q := self._liveStore.compileQuery expr language (st.live, st.env)
    let c := self._liveStore.createIndex spec (st.live, st.env)
    let x := self._liveStore.deleteIndex name (st.live, st.env)
    self.compileQuery expr language st = (q.1, ⟨q.2.1, st.dead, q.2.2⟩) ∧
    self.supportsIndexes type st = self._liveStore.supportsIndexes type (st.live, st.env) ∧
    self.createIndex spec st = (c.1, ⟨c.2.1, st.dead, c.2.2⟩) ∧
    self.deleteIndex name st = ⟨x.1, st.dead, x.2⟩ ∧
    self.getIndexes st = self._liveStore.getIndexes (st.live, st.env) ∧
    (self.compileQuery expr language st).2.dead = st.dead ∧
    (self.createIndex spec st).2.dead = st.dead ∧
    (self.deleteIndex name st).dead = st.dead ∧
    (self._liveStore.supportsIndexes type (st.live, st.env) = false →
      self.supportsIndexes type st = false) ∧
    (c.1 = false → (self.createIndex spec st).1 = false) := by
  intro q c x
  exact ⟨rfl, rfl, rfl, rfl, rfl, rfl, rfl, rfl, fun h => h, fun h => h⟩

/-- Instance of C10: the live store has no predictive indexes, so the capability check and
`createIndex` return false; creating a value index leaves the dead store as it was. -/
theorem query_index_live_only_witness :
    memBoth.supportsIndexes IndexType.kPredictive stBoth = false ∧
    (memBoth.createIndex ⟨[105], IndexType.kPredictive, []⟩ stBoth).1 = false ∧
    (memBoth.createIndex ⟨[105], IndexType.kValue, []⟩ stBoth).2.dead = deadDoc1 :=
  ⟨(query_index_live_only memBoth [] QueryLanguage.kJSON IndexType.kPredictive
      ⟨[105], IndexType.kPredictive, []⟩ [] stBoth).2.2.2.2.2.2.2.2.1 (by decide),
   (query_index_live_only memBoth [] QueryLanguage.kJSON IndexType.kPredictive
      ⟨[105], IndexType.kPredictive, []⟩ [] stBoth).2.2.2.2.2.2.2.2.2 (by decide),
   (query_index_live_only memBoth [] QueryLanguage.kJSON IndexType.kPredictive
      ⟨[105], IndexType.kValue, []⟩ [] stBoth).2.2.2.2.2.2.1⟩

end BothKeyStore

end litecore

/-- C11: `c4cert_subjectNameAtIndex` enumerates the distinguished names of the certificate
followed by its subject alternative names.  With `d` and `s` the numbers of the two kinds of
entry and an index that fits an `unsigned`: the result is the entry at the index of the
concatenation, if there is one; for `index < d` it is true with the ID and value of
distinguished name `index`; for `d ≤ index < d + s` it is true with the name of the tag and
the value of alternative name `index - d`; for `d + s ≤ index` it is false, with a null ID
and an empty value; and the subtraction made when `d ≤ index` does not wrap around. -/
theorem c4cert_subjectNameAtIndex_enumerates {Tag : Type} (nameOfTag : Tag → C4Slice)
    (cert : litecore.crypto.CertBase Tag) (index : Nat) (outInfo : C4CertNameInfo)
    (hindex : index < 2 ^ 32) :
    (c4cert_subjectNameAtIndex nameOfTag cert index outInfo =
      match (cert.subjectName.asVector.map (fun e => (e.1, e.2)) ++
             cert.subjectAltNames.map (fun e => (nameOfTag e.1, e.2)))[index]? with
      | some e => (true, ⟨e.1, e.2⟩)
      | none => (false, ⟨nullslice, none⟩)) ∧
    (∀ h : index < cert.subjectName.asVector.length,
      c4cert_subjectNameAtIndex nameOfTag cert index outInfo =
        (true, ⟨(cert.subjectName.asVector.get ⟨index, h⟩).1,
                (cert.subjectName.asVector.get ⟨index, h⟩).2⟩)) ∧
    (∀ (h1 : cert.subjectName.asVector.length ≤ index)
       (h2 : index < cert.subjectName.asVector.length + cert.subjectAltNames.length),
      c4cert_subjectNameAtIndex nameOfTag cert index outInfo =
        (true,
         ⟨nameOfTag (cert.subjectAltNames.get
            ⟨index - cert.subjectName.asVector.length, by omega⟩).1,
          (cert.subjectAltNames.get
            ⟨index - cert.subjectName.asVector.length, by omega⟩).2⟩)) ∧
    (cert.subjectName.asVector.length + cert.subjectAltNames.length ≤ index →
      c4cert_subjectNameAtIndex nameOfTag cert index outInfo = (false, ⟨nullslice, none⟩)) ∧
    (cert.subjectName.asVector.length ≤ index →
      subAssignUnsigned index cert.subjectName.asVector.length =
        index - cert.subjectName.asVector.length) := by
  have hsub : cert.subjectName.asVector.length ≤ index →
      subAssignUnsigned index cert.subjectName.asVector.length =
        index - cert.subjectName.asVector.length := by
    intro hd
    unfold subAssignUnsigned
    omega
  refine ⟨?_, ?_, ?_, ?_, hsub⟩
  · by_cases h : index < cert.subjectName.asVector.length
    · rw [List.getElem?_append_left (by simpa using h)]
      simp [c4cert_subjectNameAtIndex, h]
    · have h1 : cert.subjectName.asVector.length ≤ index := by omega
      rw [List.getElem?_append_right (by simpa using h1)]
      by_cases h3 : index - cert.subjectName.asVector.length < cert.subjectAltNames.length
      · simp [c4cert_subjectNameAtIndex, h, hsub h1, h3]
      · simp [c4cert_subjectNameAtIndex, h, hsub h1, h3]
        have : cert.subjectAltNames.length ≤ index - cert.subjectName.asVector.length := by
          omega
        simp [List.getElem?_eq_none, this]
  · intro h
    simp [c4cert_subjectNameAtIndex, h]
  · intro h1 h2
    have hn : ¬ index < cert.subjectName.asVector.length := by omega
    have h3 : index - cert.subjectName.asVector.length < cert.subjectAltNames.length := by omega
    simp [c4cert_subjectNameAtIndex, hn, hsub h1, h3]
  · intro h
    have hn : ¬ index < cert.subjectName.asVector.length := by omega
    have h1 : cert.subjectName.asVector.length ≤ index := by omega
    have h3 : ¬ index - cert.subjectName.asVector.length < cert.subjectAltNames.length := by
      omega
    simp [c4cert_subjectNameAtIndex, hn, hsub h1, h3]

/-- Instance of C11 on a certificate with two distinguished names and one alternative name:
index 2 is the alternative name, under the name of its tag; index 3 is past the end. -/
theorem c4cert_subjectNameAtIndex_enumerates_witness :
    c4cert_subjectNameAtIndex tagName certJane 2 ⟨some [1], some [2]⟩ =
      (true, ⟨some [100, 78, 83, 78, 97, 109, 101], some [106, 46, 111, 114, 103]⟩) ∧
    c4cert_subjectNameAtIndex tagName certJane 3 ⟨some [1], some [2]⟩ =
      (false, ⟨nullslice, none⟩) :=
  ⟨((c4cert_subjectNameAtIndex_enumerates tagName certJane 2 ⟨some [1], some [2]⟩
      (by decide)).2.2.1 (by decide) (by decide)).trans (by decide),
   (c4cert_subjectNameAtIndex_enumerates tagName certJane 3 ⟨some [1], some [2]⟩
      (by decide)).2.2.2.1 (by decide)⟩
